import Mathlib

/-!
Verification of the zip-rs structural core: the End-of-Central-Directory
codec, the zip64 EOCD codec (`src/spec.rs`) and the CRC32-validating
reader (`src/crc32.rs`), shallowly embedded over byte-list streams.
-/

namespace ZipRs

/-! Little-endian byte encoding helpers. A byte is a `Nat` below 256; a
stream byte is an `Option Nat`, where `none` models a byte whose read
fails at the transport level (an inner I/O fault). -/

/-- Little-endian value of a byte list. -/
def leVal : List Nat → Nat
  | [] => 0
  | b :: bs => b + 256 * leVal bs

/-- Two little-endian bytes of `n` (semantics of writing a `u16`;
truncates to 16 bits exactly as a `usize as u16` cast does). -/
def toBytes2 (n : Nat) : List Nat :=
  [n % 256, n / 256 % 256]

/-- Four little-endian bytes of `n` (semantics of writing a `u32`). -/
def toBytes4 (n : Nat) : List Nat :=
  [n % 256, n / 256 % 256, n / 65536 % 256, n / 16777216 % 256]

theorem toBytes2_length (n : Nat) : (toBytes2 n).length = 2 := rfl

theorem toBytes4_length (n : Nat) : (toBytes4 n).length = 4 := rfl

theorem leVal_toBytes2 (n : Nat) : leVal (toBytes2 n) = n % 65536 := by
  simp only [toBytes2, leVal]
  omega

theorem leVal_toBytes4 (n : Nat) : leVal (toBytes4 n) = n % 4294967296 := by
  simp only [toBytes4, leVal]
  omega

/-! CRC32 (IEEE, reflected, as computed by the `crc32fast` hasher):
initial value `0xFFFFFFFF`, per byte eight shift/xor rounds with the
reflected polynomial `0xEDB88320`, final xor with `0xFFFFFFFF`. -/

/-- One shift/xor round of the reflected CRC32. -/
def crcRound (c : Nat) : Nat :=
  if c % 2 = 1 then (c / 2) ^^^ 0xEDB88320 else c / 2

/-- Iterate `crcRound`. -/
def crcRounds : Nat → Nat → Nat
  | 0, c => c
  | n + 1, c => crcRounds n (crcRound c)

/-- Feed one byte into the CRC32 accumulator. -/
def crc32Update (c b : Nat) : Nat :=
  crcRounds 8 (c ^^^ (b % 256))

/-- CRC32 of a byte list: what `Hasher::finalize` returns after
updating a fresh hasher with those bytes. -/
def crc32 (bs : List Nat) : Nat :=
  (bs.foldl crc32Update 0xFFFFFFFF) ^^^ 0xFFFFFFFF

/-! The seekable byte stream model used by the EOCD and zip64 codecs. -/

/-- A transport-level failure of the underlying stream. -/
inductive StreamErr : Type where
  | unexpectedEof : StreamErr
  | fault : StreamErr
deriving DecidableEq

/-- The error type of the codecs, mirroring `ZipError`: a structural
error with its message, or a propagated stream error. -/
inductive ZipError : Type where
  | invalidArchive (msg : String) : ZipError
  | ioError (e : StreamErr) : ZipError
deriving DecidableEq

/-- A seekable stream: its bytes and a cursor. A `none` byte faults
when read. -/
structure ByteStream where
  data : List (Option Nat)
  pos : Nat
deriving DecidableEq

/-- Sequence a list of optional bytes; `none` if any byte is faulted. -/
def seqOpt : List (Option Nat) → Option (List Nat)
  | [] => some []
  | none :: _ => none
  | some b :: rest => (seqOpt rest).map (fun l => b :: l)

/-- Read exactly `n` bytes at the cursor (semantics of `read_exact`):
fails with `unexpectedEof` if fewer than `n` bytes remain, with `fault`
if a byte's transport read fails. -/
def readBytes (s : ByteStream) (n : Nat) : Except StreamErr (List Nat × ByteStream) :=
  if s.pos + n ≤ s.data.length then
    match seqOpt ((s.data.drop s.pos).take n) with
    | some bs => .ok (bs, ⟨s.data, s.pos + n⟩)
    | none => .error .fault
  else .error .unexpectedEof

/-- Read a little-endian `u16` (semantics of `read_u16::<LittleEndian>`). -/
def readU16 (s : ByteStream) : Except StreamErr (Nat × ByteStream) :=
  (readBytes s 2).map (fun p => (leVal p.1, p.2))

/-- Read a little-endian `u32`. -/
def readU32 (s : ByteStream) : Except StreamErr (Nat × ByteStream) :=
  (readBytes s 4).map (fun p => (leVal p.1, p.2))

/-- Read a little-endian `u64`. -/
def readU64 (s : ByteStream) : Except StreamErr (Nat × ByteStream) :=
  (readBytes s 8).map (fun p => (leVal p.1, p.2))

/-- Lift a stream error into `ZipError`, as the `?` operator does. -/
def liftStream : Except StreamErr α → Except ZipError α
  | .ok a => .ok a
  | .error e => .error (.ioError e)

/-! End-of-Central-Directory codec (`CentralDirectoryEnd` in `spec.rs`). -/

/-- `CENTRAL_DIRECTORY_END_SIGNATURE`. -/
def cdeSig : Nat := 0x06054b50

/-- `ZIP64_CENTRAL_DIRECTORY_END_SIGNATURE`. -/
def zip64Sig : Nat := 0x06064b50

/-- The EOCD record, with the exact fields of the Rust struct. Fields
are `Nat` images of `u16`/`u32` values; `Wf` states the width bounds
the Rust types impose. -/
structure CentralDirectoryEnd where
  disk_number : Nat
  disk_with_central_directory : Nat
  number_of_files_on_this_disk : Nat
  number_of_files : Nat
  central_directory_size : Nat
  central_directory_offset : Nat
  zip_file_comment : List Nat
deriving DecidableEq

/-- Width bounds of the Rust field types (`u16`, `u32`) together with
the 16-bit bound on the comment length. -/
def CentralDirectoryEnd.Wf (r : CentralDirectoryEnd) : Prop :=
  r.disk_number < 65536 ∧ r.disk_with_central_directory < 65536 ∧
  r.number_of_files_on_this_disk < 65536 ∧ r.number_of_files < 65536 ∧
  r.central_directory_size < 4294967296 ∧ r.central_directory_offset < 4294967296 ∧
  r.zip_file_comment.length ≤ 65535

instance (r : CentralDirectoryEnd) : Decidable r.Wf := by
  unfold CentralDirectoryEnd.Wf
  infer_instance

/-- `CentralDirectoryEnd::parse`: magic, six fixed fields, 16-bit
comment length, then exactly that many comment bytes. -/
def CentralDirectoryEnd.parse (s0 : ByteStream) :
    Except ZipError (CentralDirectoryEnd × ByteStream) :=
  match readU32 s0 with
  | .error e => .error (.ioError e)
  | .ok (magic, s1) =>
    if magic = cdeSig then
      match readU16 s1 with
      | .error e => .error (.ioError e)
      | .ok (disk_number, s2) =>
        match readU16 s2 with
        | .error e => .error (.ioError e)
        | .ok (disk_with_central_directory, s3) =>
          match readU16 s3 with
          | .error e => .error (.ioError e)
          | .ok (number_of_files_on_this_disk, s4) =>
            match readU16 s4 with
            | .error e => .error (.ioError e)
            | .ok (number_of_files, s5) =>
              match readU32 s5 with
              | .error e => .error (.ioError e)
              | .ok (central_directory_size, s6) =>
                match readU32 s6 with
                | .error e => .error (.ioError e)
                | .ok (central_directory_offset, s7) =>
                  match readU16 s7 with
                  | .error e => .error (.ioError e)
                  | .ok (zip_file_comment_length, s8) =>
                    match readBytes s8 zip_file_comment_length with
                    | .error e => .error (.ioError e)
                    | .ok (zip_file_comment, s9) =>
                      .ok (⟨disk_number, disk_with_central_directory,
                            number_of_files_on_this_disk, number_of_files,
                            central_directory_size, central_directory_offset,
                            zip_file_comment⟩, s9)
    else .error (.invalidArchive "Invalid digital signature header")

/-- `CentralDirectoryEnd::write`: magic, the six fixed fields, the
comment length cast `as u16`, then the raw comment bytes. -/
def CentralDirectoryEnd.write (r : CentralDirectoryEnd) : List Nat :=
  toBytes4 cdeSig ++ toBytes2 r.disk_number ++ toBytes2 r.disk_with_central_directory ++
  toBytes2 r.number_of_files_on_this_disk ++ toBytes2 r.number_of_files ++
  toBytes4 r.central_directory_size ++ toBytes4 r.central_directory_offset ++
  toBytes2 r.zip_file_comment.length ++ r.zip_file_comment

/-- The not-found structural error of the backward scan. -/
def cdeNotFound : Except ZipError (CentralDirectoryEnd × Nat) :=
  .error (.invalidArchive "Could not find central directory end")

/-- One candidate test of the blocking backward scan: seek to `pos`,
read 4 bytes; on the magic, parse at `pos` and return that result
(`none` means no match, keep scanning). Mirrors the loop body of
`CentralDirectoryEnd::find_and_parse`, which performs no
comment-length consistency check. -/
def tryCde (data : List (Option Nat)) (pos : Nat) :
    Option (Except ZipError (CentralDirectoryEnd × Nat)) :=
  match readU32 ⟨data, pos⟩ with
  | .error e => some (.error (.ioError e))
  | .ok (magic, _) =>
    if magic = cdeSig then
      some ((CentralDirectoryEnd.parse ⟨data, pos⟩).map (fun p => (p.1, pos)))
    else none

/-- The `while pos >= search_upper_bound` loop of
`CentralDirectoryEnd::find_and_parse`, scanning backward from `pos`
and breaking (via `checked_sub`) below position 0. -/
def scanBack (data : List (Option Nat)) (ub : Nat) :
    Nat → Except ZipError (CentralDirectoryEnd × Nat)
  | 0 =>
    if 0 < ub then cdeNotFound
    else (tryCde data 0).getD cdeNotFound
  | p + 1 =>
    if p + 1 < ub then cdeNotFound
    else
      match tryCde data (p + 1) with
      | some r => r
      | none => scanBack data ub p

/-- `CentralDirectoryEnd::find_and_parse`: fails on streams shorter
than `HEADER_SIZE = 22`, otherwise scans backward from
`file_length - 22` down to `file_length.saturating_sub(22 + 65535)`. -/
def CentralDirectoryEnd.find_and_parse (data : List (Option Nat)) :
    Except ZipError (CentralDirectoryEnd × Nat) :=
  if data.length < 22 then .error (.invalidArchive "Invalid zip header")
  else scanBack data (data.length - 65557) (data.length - 22)

/-- Result of the suspension-based scan: success, a returned error, or
a panic of the surrounding task (what `.expect` does on an error). -/
inductive AsyncOutcome (α : Type) : Type where
  | ok (a : α) : AsyncOutcome α
  | err (e : ZipError) : AsyncOutcome α
  | panicked (msg : String) : AsyncOutcome α
deriving DecidableEq

/-- The not-found error of the suspension-based backward scan. -/
def cdeNotFoundAsync : AsyncOutcome (CentralDirectoryEnd × Nat) :=
  .err (.invalidArchive "Could not find central directory end")

/-- One candidate test of `CentralDirectoryEnd::find_and_parse_async`:
the 4-byte magic read is unwrapped with `.expect("fff")`, so a stream
error there panics; on a magic match the declared comment length (read
16 bytes past the magic) must equal `file_length - pos - 22`, else the
candidate is rejected and the scan continues. -/
def tryCdeAsync (data : List (Option Nat)) (fileLength pos : Nat) :
    Option (AsyncOutcome (CentralDirectoryEnd × Nat)) :=
  match readU32 ⟨data, pos⟩ with
  | .error _ => some (.panicked "fff")
  | .ok (magic, _) =>
    if magic = cdeSig then
      match readU16 ⟨data, pos + 20⟩ with
      | .error e => some (.err (.ioError e))
      | .ok (comment_length, _) =>
        if fileLength - pos - 22 = comment_length then
          some (match CentralDirectoryEnd.parse ⟨data, pos⟩ with
                | .error e => .err e
                | .ok (cde, _) => .ok (cde, pos))
        else none
    else none

/-- The backward-scan loop of `CentralDirectoryEnd::find_and_parse_async`. -/
def scanBackAsync (data : List (Option Nat)) (fileLength ub : Nat) :
    Nat → AsyncOutcome (CentralDirectoryEnd × Nat)
  | 0 =>
    if 0 < ub then cdeNotFoundAsync
    else (tryCdeAsync data fileLength 0).getD cdeNotFoundAsync
  | p + 1 =>
    if p + 1 < ub then cdeNotFoundAsync
    else
      match tryCdeAsync data fileLength (p + 1) with
      | some r => r
      | none => scanBackAsync data fileLength ub p

/-- `CentralDirectoryEnd::find_and_parse_async`, the suspension-based
backward scan with the comment-length consistency check. -/
def CentralDirectoryEnd.find_and_parse_async (data : List (Option Nat)) :
    AsyncOutcome (CentralDirectoryEnd × Nat) :=
  if data.length < 22 then .err (.invalidArchive "Invalid zip header")
  else scanBackAsync data data.length (data.length - 65557) (data.length - 22)

/-! Zip64 End-of-Central-Directory codec. -/

/-- The `Zip64CentralDirectoryEnd` record, fields as in the Rust struct. -/
structure Zip64CentralDirectoryEnd where
  version_made_by : Nat
  version_needed_to_extract : Nat
  disk_number : Nat
  disk_with_central_directory : Nat
  number_of_files_on_this_disk : Nat
  number_of_files : Nat
  central_directory_size : Nat
  central_directory_offset : Nat
deriving DecidableEq

/-- The field reads performed after the zip64 magic matched at `pos`:
an unused 8-byte record size, then the eight fixed fields; returns the
record together with `archive_offset = pos - nominal_offset`. -/
def parseZip64Body (data : List (Option Nat)) (pos nominal : Nat) :
    Except ZipError (Zip64CentralDirectoryEnd × Nat) :=
  match readU64 ⟨data, pos + 4⟩ with
  | .error e => .error (.ioError e)
  | .ok (_record_size, s1) =>
    match readU16 s1 with
    | .error e => .error (.ioError e)
    | .ok (version_made_by, s2) =>
      match readU16 s2 with
      | .error e => .error (.ioError e)
      | .ok (version_needed_to_extract, s3) =>
        match readU32 s3 with
        | .error e => .error (.ioError e)
        | .ok (disk_number, s4) =>
          match readU32 s4 with
          | .error e => .error (.ioError e)
          | .ok (disk_with_central_directory, s5) =>
            match readU64 s5 with
            | .error e => .error (.ioError e)
            | .ok (number_of_files_on_this_disk, s6) =>
              match readU64 s6 with
              | .error e => .error (.ioError e)
              | .ok (number_of_files, s7) =>
                match readU64 s7 with
                | .error e => .error (.ioError e)
                | .ok (central_directory_size, s8) =>
                  match readU64 s8 with
                  | .error e => .error (.ioError e)
                  | .ok (central_directory_offset, _) =>
                    .ok (⟨version_made_by, version_needed_to_extract,
                          disk_number, disk_with_central_directory,
                          number_of_files_on_this_disk, number_of_files,
                          central_directory_size, central_directory_offset⟩,
                         pos - nominal)

/-- The `while pos <= search_upper_bound` loop of
`Zip64CentralDirectoryEnd::find_and_parse`, scanning forward from
`pos`; the fuel argument counts the remaining candidate positions
(`search_upper_bound + 1 - pos`), so fuel 0 is the not-found exit. -/
def zip64Scan (data : List (Option Nat)) (nominal : Nat) :
    Nat → Nat → Except ZipError (Zip64CentralDirectoryEnd × Nat)
  | _pos, 0 => .error (.invalidArchive "Could not find ZIP64 central directory end")
  | pos, fuel + 1 =>
    match readU32 ⟨data, pos⟩ with
    | .error e => .error (.ioError e)
    | .ok (magic, _) =>
      if magic = zip64Sig then parseZip64Body data pos nominal
      else zip64Scan data nominal (pos + 1) fuel

/-- `Zip64CentralDirectoryEnd::find_and_parse`: forward scan from
`nominal_offset` up to and including `search_upper_bound`. -/
def Zip64CentralDirectoryEnd.find_and_parse (data : List (Option Nat))
    (nominal ub : Nat) : Except ZipError (Zip64CentralDirectoryEnd × Nat) :=
  zip64Scan data nominal nominal (ub + 1 - nominal)

/-! The CRC32-validating reader (`Crc32Reader` in `crc32.rs`). The
inner `R: Read` source is abstracted as a step function from an inner
state and a requested byte count to at most that many bytes (or an
inner error) and a successor state. -/

/-- An inner byte source: `step st bufLen` is one `inner.read` call on
a buffer of length `bufLen`. -/
def InnerStep (σ E : Type) : Type :=
  σ → Nat → Except E (List Nat) × σ

/-- Error type of a `Crc32Reader` read: the checksum-mismatch error it
creates itself, or a propagated inner error. -/
inductive Crc32Err (E : Type) : Type where
  | invalidChecksum : Crc32Err E
  | ioError (e : E) : Crc32Err E
deriving DecidableEq

/-- The `Crc32Reader` state: the inner source, the hasher (represented
by the byte sequence fed to it so far, finalized by `crc32`), and the
expected checksum fixed at construction. -/
structure Crc32Reader (σ : Type) where
  inner : σ
  hasher : List Nat
  check : Nat
deriving DecidableEq

/-- `Crc32Reader::check_matches`. -/
def Crc32Reader.check_matches (r : Crc32Reader σ) : Prop :=
  r.check = crc32 r.hasher

instance (r : Crc32Reader σ) : Decidable r.check_matches := by
  unfold Crc32Reader.check_matches
  infer_instance

/-- The blocking `Crc32Reader::read`: one inner read; `Ok(0)` on a
nonempty buffer with a mismatched checksum becomes the checksum error,
inner errors propagate, and otherwise the hasher is updated with the
bytes read and their count is returned. -/
def Crc32Reader.read (step : InnerStep σ E) (r : Crc32Reader σ) (bufLen : Nat) :
    Except (Crc32Err E) Nat × Crc32Reader σ :=
  match step r.inner bufLen with
  | (.error e, s) => (.error (.ioError e), { r with inner := s })
  | (.ok bs, s) =>
    if bs.length = 0 ∧ bufLen ≠ 0 ∧ ¬(r.check = crc32 r.hasher) then
      (.error .invalidChecksum, { r with inner := s })
    else
      (.ok bs.length, ⟨s, r.hasher ++ bs, r.check⟩)

/-- The inner source used by the repository's own tests: a byte slice,
which serves `min bufLen remaining` bytes and never fails. -/
def sliceStep : InnerStep (List Nat) Empty :=
  fun data bufLen => (.ok (data.take bufLen), data.drop bufLen)

/-- Result of polling a future once. -/
inductive Poll (α : Type) : Type where
  | ready (a : α) : Poll α
  | pending : Poll α
deriving DecidableEq

/-- The suspension-based `Crc32Reader::poll_read`: if the inner read is
pending, nothing else happens; once it resolves, the identical
transformation as the blocking `read` is applied to its outcome. -/
def Crc32Reader.poll_read (step : InnerStep σ E) (r : Crc32Reader σ)
    (bufLen : Nat) (innerPending : Bool) :
    Poll (Except (Crc32Err E) Nat) × Crc32Reader σ :=
  if innerPending then (.pending, r)
  else
    match step r.inner bufLen with
    | (.error e, s) => (.ready (.error (.ioError e)), { r with inner := s })
    | (.ok bs, s) =>
      if bs.length = 0 ∧ bufLen ≠ 0 ∧ ¬(r.check = crc32 r.hasher) then
        (.ready (.error .invalidChecksum), { r with inner := s })
      else
        (.ready (.ok bs.length), ⟨s, r.hasher ++ bs, r.check⟩)

/-- Await one `poll_read` to completion: the schedule lists, for each
poll, whether the inner read is still pending; the await re-polls until
the inner read resolves (an exhausted schedule resolves). -/
def awaitRead (step : InnerStep σ E) (bufLen : Nat) :
    List Bool → Crc32Reader σ → Except (Crc32Err E) Nat × Crc32Reader σ
  | [], r =>
    match Crc32Reader.poll_read step r bufLen false with
    | (.ready res, s) => (res, s)
    | (.pending, s) => (.error .invalidChecksum, s)
  | b :: rest, r =>
    match Crc32Reader.poll_read step r bufLen b with
    | (.ready res, s) => (res, s)
    | (.pending, s) => awaitRead step bufLen rest s

/-- Run a sequence of blocking reads with the given buffer lengths,
collecting each result. -/
def runReads (step : InnerStep σ E) :
    Crc32Reader σ → List Nat → List (Except (Crc32Err E) Nat) × Crc32Reader σ
  | r, [] => ([], r)
  | r, n :: ns =>
    let p := Crc32Reader.read step r n
    let t := runReads step p.2 ns
    (p.1 :: t.1, t.2)

/-- Run a sequence of awaited `poll_read`s, each with its own pending
schedule and buffer length. -/
def runAwaits (step : InnerStep σ E) :
    Crc32Reader σ → List (List Bool × Nat) → List (Except (Crc32Err E) Nat) × Crc32Reader σ
  | r, [] => ([], r)
  | r, q :: qs =>
    let p := awaitRead step q.2 q.1 r
    let t := runAwaits step p.2 qs
    (p.1 :: t.1, t.2)

/-! Shared lemmas about reads from a fault-free stream. -/

instance {ε α : Type} [DecidableEq ε] [DecidableEq α] : DecidableEq (Except ε α) :=
  fun a b =>
    match a, b with
    | .ok x, .ok y => if h : x = y then .isTrue (by rw [h]) else .isFalse (by simp [h])
    | .error x, .error y => if h : x = y then .isTrue (by rw [h]) else .isFalse (by simp [h])
    | .ok _, .error _ => .isFalse (by simp)
    | .error _, .ok _ => .isFalse (by simp)

/-- A fault-free stream over the byte list `l`, cursor at the start. -/
def pureData (l : List Nat) : List (Option Nat) :=
  l.map some

theorem seqOpt_map_some (l : List Nat) : seqOpt (l.map some) = some l := by
  induction l with
  | nil => rfl
  | cons b bs ih => simp [seqOpt, ih]

theorem readBytes_pure (l : List Nat) (p n : Nat) (h : p + n ≤ l.length) :
    readBytes ⟨pureData l, p⟩ n = .ok ((l.drop p).take n, ⟨pureData l, p + n⟩) := by
  unfold readBytes pureData
  rw [← List.map_drop, ← List.map_take, seqOpt_map_some]
  simp [h]

theorem readU16_pure (l : List Nat) (p : Nat) (h : p + 2 ≤ l.length) :
    readU16 ⟨pureData l, p⟩ = .ok (leVal ((l.drop p).take 2), ⟨pureData l, p + 2⟩) := by
  rw [readU16, readBytes_pure l p 2 h]
  rfl

theorem readU32_pure (l : List Nat) (p : Nat) (h : p + 4 ≤ l.length) :
    readU32 ⟨pureData l, p⟩ = .ok (leVal ((l.drop p).take 4), ⟨pureData l, p + 4⟩) := by
  rw [readU32, readBytes_pure l p 4 h]
  rfl

theorem readU64_pure (l : List Nat) (p : Nat) (h : p + 8 ≤ l.length) :
    readU64 ⟨pureData l, p⟩ = .ok (leVal ((l.drop p).take 8), ⟨pureData l, p + 8⟩) := by
  rw [readU64, readBytes_pure l p 8 h]
  rfl

theorem write_length (r : CentralDirectoryEnd) :
    (CentralDirectoryEnd.write r).length = 22 + r.zip_file_comment.length := by
  simp [CentralDirectoryEnd.write, toBytes2, toBytes4]
  omega

/-! Claim C5: write/parse round trip of the EOCD record. -/

theorem take_chunk {c rest : List Nat} (n : Nat) (h : c.length = n) :
    (c ++ rest).take n = c := by
  subst h
  exact List.take_left c rest

theorem drop_chunk {c rest : List Nat} (n : Nat) (h : c.length = n) :
    (c ++ rest).drop n = rest := by
  subst h
  exact List.drop_left c rest

theorem take2_chunk (a : Nat) (rest : List Nat) :
    (toBytes2 a ++ rest).take 2 = toBytes2 a :=
  take_chunk 2 rfl

theorem take4_chunk (a : Nat) (rest : List Nat) :
    (toBytes4 a ++ rest).take 4 = toBytes4 a :=
  take_chunk 4 rfl

/-- C5: for every EOCD record whose comment has length in [0, 65535]
(and whose fields fit their Rust integer types), writing the record and
parsing the resulting bytes succeeds and reproduces every field
exactly, leaving the cursor after the record. -/
theorem c5_roundtrip (r : CentralDirectoryEnd) (h : r.Wf) :
    CentralDirectoryEnd.parse ⟨pureData r.write, 0⟩ =
      .ok (r, ⟨pureData r.write, 22 + r.zip_file_comment.length⟩) := by
  obtain ⟨dn, dwcd, nfd, nf, cds, cdo, comment⟩ := r
  obtain ⟨h1, h2, h3, h4, h5, h6, h7⟩ := h
  simp only at h1 h2 h3 h4 h5 h6 h7 ⊢
  set W := CentralDirectoryEnd.write ⟨dn, dwcd, nfd, nf, cds, cdo, comment⟩ with hWdef
  have hw : W = toBytes4 cdeSig ++ (toBytes2 dn ++ (toBytes2 dwcd ++ (toBytes2 nfd ++
      (toBytes2 nf ++ (toBytes4 cds ++ (toBytes4 cdo ++
      (toBytes2 comment.length ++ comment))))))) := by
    rw [hWdef]
    simp [CentralDirectoryEnd.write, List.append_assoc]
  have hlen : W.length = 22 + comment.length := write_length _
  have e4 : W.drop 4 = toBytes2 dn ++ (toBytes2 dwcd ++ (toBytes2 nfd ++
      (toBytes2 nf ++ (toBytes4 cds ++ (toBytes4 cdo ++
      (toBytes2 comment.length ++ comment)))))) := by
    rw [hw]; exact drop_chunk 4 rfl
  have e6 : W.drop 6 = toBytes2 dwcd ++ (toBytes2 nfd ++
      (toBytes2 nf ++ (toBytes4 cds ++ (toBytes4 cdo ++
      (toBytes2 comment.length ++ comment))))) := by
    rw [show (6:Nat) = 4 + 2 from rfl, ← List.drop_drop, e4]; exact drop_chunk 2 rfl
  have e8 : W.drop 8 = toBytes2 nfd ++
      (toBytes2 nf ++ (toBytes4 cds ++ (toBytes4 cdo ++
      (toBytes2 comment.length ++ comment)))) := by
    rw [show (8:Nat) = 6 + 2 from rfl, ← List.drop_drop, e6]; exact drop_chunk 2 rfl
  have e10 : W.drop 10 = toBytes2 nf ++ (toBytes4 cds ++ (toBytes4 cdo ++
      (toBytes2 comment.length ++ comment))) := by
    rw [show (10:Nat) = 8 + 2 from rfl, ← List.drop_drop, e8]; exact drop_chunk 2 rfl
  have e12 : W.drop 12 = toBytes4 cds ++ (toBytes4 cdo ++
      (toBytes2 comment.length ++ comment)) := by
    rw [show (12:Nat) = 10 + 2 from rfl, ← List.drop_drop, e10]; exact drop_chunk 2 rfl
  have e16 : W.drop 16 = toBytes4 cdo ++ (toBytes2 comment.length ++ comment) := by
    rw [show (16:Nat) = 12 + 4 from rfl, ← List.drop_drop, e12]; exact drop_chunk 4 rfl
  have e20 : W.drop 20 = toBytes2 comment.length ++ comment := by
    rw [show (20:Nat) = 16 + 4 from rfl, ← List.drop_drop, e16]; exact drop_chunk 4 rfl
  have e22 : W.drop 22 = comment := by
    rw [show (22:Nat) = 20 + 2 from rfl, ← List.drop_drop, e20]; exact drop_chunk 2 rfl
  have R0 : readU32 ⟨pureData W, 0⟩ = .ok (cdeSig, ⟨pureData W, 4⟩) := by
    rw [readU32_pure W 0 (by omega)]
    rw [List.drop_zero, hw, take4_chunk]
    norm_num [leVal, toBytes4, cdeSig]
  have R1 : readU16 ⟨pureData W, 4⟩ = .ok (dn, ⟨pureData W, 6⟩) := by
    rw [readU16_pure W 4 (by omega), e4, take2_chunk, leVal_toBytes2,
      Nat.mod_eq_of_lt h1]
  have R2 : readU16 ⟨pureData W, 6⟩ = .ok (dwcd, ⟨pureData W, 8⟩) := by
    rw [readU16_pure W 6 (by omega), e6, take2_chunk, leVal_toBytes2,
      Nat.mod_eq_of_lt h2]
  have R3 : readU16 ⟨pureData W, 8⟩ = .ok (nfd, ⟨pureData W, 10⟩) := by
    rw [readU16_pure W 8 (by omega), e8, take2_chunk, leVal_toBytes2,
      Nat.mod_eq_of_lt h3]
  have R4 : readU16 ⟨pureData W, 10⟩ = .ok (nf, ⟨pureData W, 12⟩) := by
    rw [readU16_pure W 10 (by omega), e10, take2_chunk, leVal_toBytes2,
      Nat.mod_eq_of_lt h4]
  have R5 : readU32 ⟨pureData W, 12⟩ = .ok (cds, ⟨pureData W, 16⟩) := by
    rw [readU32_pure W 12 (by omega), e12, take4_chunk, leVal_toBytes4,
      Nat.mod_eq_of_lt h5]
  have R6 : readU32 ⟨pureData W, 16⟩ = .ok (cdo, ⟨pureData W, 20⟩) := by
    rw [readU32_pure W 16 (by omega), e16, take4_chunk, leVal_toBytes4,
      Nat.mod_eq_of_lt h6]
  have R7 : readU16 ⟨pureData W, 20⟩ = .ok (comment.length, ⟨pureData W, 22⟩) := by
    rw [readU16_pure W 20 (by omega), e20, take2_chunk, leVal_toBytes2,
      Nat.mod_eq_of_lt (by omega)]
  have R8 : readBytes ⟨pureData W, 22⟩ comment.length =
      .ok (comment, ⟨pureData W, 22 + comment.length⟩) := by
    rw [readBytes_pure W 22 comment.length (by omega), e22, List.take_length]
  simp only [CentralDirectoryEnd.parse, R0, R1, R2, R3, R4, R5, R6, R7, R8,
    eq_self_iff_true, if_true]

/-- C5 witness: the round trip evaluated at a concrete record. -/
theorem c5_roundtrip_witness :
    (⟨1, 2, 3, 4, 5, 6, [7, 8]⟩ : CentralDirectoryEnd).Wf ∧
      CentralDirectoryEnd.parse ⟨pureData (⟨1, 2, 3, 4, 5, 6, [7, 8]⟩ :
          CentralDirectoryEnd).write, 0⟩ =
        .ok (⟨1, 2, 3, 4, 5, 6, [7, 8]⟩,
             ⟨pureData (⟨1, 2, 3, 4, 5, 6, [7, 8]⟩ : CentralDirectoryEnd).write, 24⟩) :=
  ⟨by decide, c5_roundtrip ⟨1, 2, 3, 4, 5, 6, [7, 8]⟩ (by decide)⟩

/-! Claim C8: streams shorter than 22 bytes are rejected up front. -/

/-- C8: for every stream whose total length is strictly less than 22
bytes, `find_and_parse` fails immediately with the archive-structure
error, attempting no candidate parse. -/
theorem c8_short_stream (data : List (Option Nat)) (h : data.length < 22) :
    CentralDirectoryEnd.find_and_parse data =
      .error (.invalidArchive "Invalid zip header") := by
  unfold CentralDirectoryEnd.find_and_parse
  rw [if_pos h]

/-- C8 witness: the empty stream. -/
theorem c8_short_stream_witness :
    ([] : List (Option Nat)).length < 22 ∧
      CentralDirectoryEnd.find_and_parse [] =
        .error (.invalidArchive "Invalid zip header") :=
  ⟨by decide, c8_short_stream [] (by decide)⟩

/-! Claim C10: `write` truncates the declared comment length modulo
2^16 while still writing every comment byte. -/

/-- C10: for every record whose comment length exceeds 65535, `write`
still succeeds and emits 22 header bytes followed by the full comment,
with the declared comment-length field equal to the length reduced
modulo 2^16 — which then disagrees with the number of comment bytes
actually written. -/
theorem c10_comment_length_truncated (r : CentralDirectoryEnd)
    (h : r.zip_file_comment.length > 65535) :
    r.write.length = 22 + r.zip_file_comment.length ∧
      leVal ((r.write.drop 20).take 2) = r.zip_file_comment.length % 65536 ∧
      r.write.drop 22 = r.zip_file_comment ∧
      r.zip_file_comment.length % 65536 ≠ r.zip_file_comment.length := by
  obtain ⟨dn, dwcd, nfd, nf, cds, cdo, comment⟩ := r
  simp only at h ⊢
  have hw : CentralDirectoryEnd.write ⟨dn, dwcd, nfd, nf, cds, cdo, comment⟩ =
      toBytes4 cdeSig ++ (toBytes2 dn ++ (toBytes2 dwcd ++ (toBytes2 nfd ++
      (toBytes2 nf ++ (toBytes4 cds ++ (toBytes4 cdo ++
      (toBytes2 comment.length ++ comment))))))) := by
    simp [CentralDirectoryEnd.write, List.append_assoc]
  refine ⟨write_length _, ?_, ?_, by omega⟩
  · have e20 : (CentralDirectoryEnd.write
        ⟨dn, dwcd, nfd, nf, cds, cdo, comment⟩).drop 20 =
        toBytes2 comment.length ++ comment := by
      rw [hw]
      simp [toBytes2, toBytes4, List.drop_append]
    rw [e20, take2_chunk, leVal_toBytes2]
  · rw [hw]
    simp [toBytes2, toBytes4, List.drop_append]

/-- The concrete record of the C10 witness: a 65536-byte comment. -/
def c10Rec : CentralDirectoryEnd :=
  ⟨0, 0, 0, 0, 0, 0, List.replicate 65536 9⟩

/-- C10 witness: with a 65536-byte comment the declared length field
holds 0 while all 65536 comment bytes are written. -/
theorem c10_comment_length_truncated_witness :
    c10Rec.zip_file_comment.length > 65535 ∧
      (c10Rec.write.length = 22 + c10Rec.zip_file_comment.length ∧
        leVal ((c10Rec.write.drop 20).take 2) = c10Rec.zip_file_comment.length % 65536 ∧
        c10Rec.write.drop 22 = c10Rec.zip_file_comment ∧
        c10Rec.zip_file_comment.length % 65536 ≠ c10Rec.zip_file_comment.length) := by
  have h : c10Rec.zip_file_comment.length > 65535 := by
    rw [show c10Rec.zip_file_comment = List.replicate 65536 9 from rfl,
      List.length_replicate]
    omega
  exact ⟨h, c10_comment_length_truncated c10Rec h⟩

/-! Claim C1: the comment-length consistency check on the backward
scan. The blocking `find_and_parse` performs no such check, so on a
stream whose true EOCD comment embeds a false-positive magic it
returns the false positive; only `find_and_parse_async` rejects it. -/

/-- Fixed part of a false EOCD record embedded inside a comment: the
magic, disk_number 9, zero fields, and a declared comment length of 1
— inconsistent with its distance from end-of-file. -/
def c1FakeBytes : List Nat :=
  [0x50, 0x4B, 0x05, 0x06, 9, 0, 0, 0, 0, 0, 0, 0, 0, 0, 0, 0, 0, 0, 0, 0, 1, 0]

/-- Comment of the true record: the false record followed by three
trailing bytes, so the false candidate's declared comment length (1)
differs from its distance to end-of-file (3). -/
def c1Comment : List Nat :=
  c1FakeBytes ++ [0xAA, 0xBB, 0xCC]

/-- The true EOCD record of the C1 stream, at offset 0. -/
def c1True : CentralDirectoryEnd :=
  ⟨1, 0, 1, 1, 0, 0, c1Comment⟩

/-- The record the blocking scan actually returns: the false positive
parsed at offset 22, inside the comment. -/
def c1Fake : CentralDirectoryEnd :=
  ⟨9, 0, 0, 0, 0, 0, [0xAA]⟩

/-- The 47-byte C1 stream: the true record followed by its comment. -/
def c1Data : List (Option Nat) :=
  pureData c1True.write

/-- C1: evaluated on the C1 stream, the blocking `find_and_parse`
returns the false-positive record found at offset 22 inside the
comment — it applies no comment-length consistency check — while
`find_and_parse_async`, which does apply the check, rejects that
candidate and returns the true record at offset 0. This refutes the
claim that the check is applied in both execution models. -/
theorem c1_blocking_scan_lacks_length_check :
    CentralDirectoryEnd.find_and_parse c1Data = .ok (c1Fake, 22) ∧
      CentralDirectoryEnd.find_and_parse_async c1Data = .ok (c1True, 0) := by
  constructor
  · decide
  · decide

/-! Claim C7: propagation of inner stream errors. `Crc32Reader::read`
propagates them unchanged, but the suspension-based EOCD backward scan
unwraps its 4-byte magic read with `.expect("fff")`, turning a stream
error into a panic instead of propagating it. -/

/-- A 22-byte stream whose first byte faults when read. -/
def c7Data : List (Option Nat) :=
  none :: List.replicate 21 (some 0)

/-- C7: on a stream whose magic read fails with an I/O error, the
blocking backward scan propagates the error to the caller, but the
suspension-based scan panics (the `.expect("fff")` at the magic read)
— refuting the claim that every inner I/O error is propagated, never
converted into a panic, in both execution models. The `Crc32Reader`
conjunct shows `read` itself does propagate inner errors unchanged. -/
theorem c7_async_scan_panics_on_stream_error :
    CentralDirectoryEnd.find_and_parse c7Data = .error (.ioError .fault) ∧
      CentralDirectoryEnd.find_and_parse_async c7Data = .panicked "fff" ∧
      ∀ (σ E : Type) (step : InnerStep σ E) (r : Crc32Reader σ) (bufLen : Nat)
        (e : E) (s : σ), step r.inner bufLen = (.error e, s) →
          Crc32Reader.read step r bufLen = (.error (.ioError e), { r with inner := s }) := by
  refine ⟨by decide, by decide, ?_⟩
  intro σ E step r bufLen e s hstep
  unfold Crc32Reader.read
  rw [hstep]

/-! Claim C2: the zip64 forward scan and the archive offset. As
stated the claim is false: a stream that contains the magic but ends
before the 52-byte record body makes `find_and_parse` fail instead of
succeed. With the record body present it succeeds with
`archive_offset = N`. -/

/-- A 4-byte stream holding exactly the zip64 EOCD magic. -/
def c2Data : List Nat :=
  [0x50, 0x4B, 0x06, 0x06]

/-- Little-endian `u32` value of the stream at position `p` (defined
only from the bytes; the magic test of the scan compares this). -/
def u32At (l : List Nat) (p : Nat) : Nat :=
  leVal ((l.drop p).take 4)

/-- C2 counterexample: the 4-byte stream consisting of the zip64 magic
alone satisfies every premise of the claim with `nominal_offset = 0`,
`N = 0`, `search_upper_bound = 0` — the magic sits at position
`nominal_offset + 0`, within the bound, with no earlier occurrence —
yet `find_and_parse` fails (the 8-byte record-size read hits
end-of-stream) instead of succeeding with `archive_offset = 0`. -/
theorem c2_truncated_record_fails :
    u32At c2Data 0 = zip64Sig ∧ c2Data.length = 4 ∧
      Zip64CentralDirectoryEnd.find_and_parse (pureData c2Data) 0 0 =
        .error (.ioError .unexpectedEof) := by
  refine ⟨by decide, by decide, by decide⟩

/-! Claim C2 (amended form) and its proof: the forward scan lemmas. -/

theorem parseZip64Body_pure (l : List Nat) (pos nominal : Nat)
    (h : pos + 56 ≤ l.length) :
    ∃ rec, parseZip64Body (pureData l) pos nominal = .ok (rec, pos - nominal) := by
  simp only [parseZip64Body,
    readU64_pure l (pos + 4) (by omega),
    readU16_pure l (pos + 4 + 8) (by omega),
    readU16_pure l (pos + 4 + 8 + 2) (by omega),
    readU32_pure l (pos + 4 + 8 + 2 + 2) (by omega),
    readU32_pure l (pos + 4 + 8 + 2 + 2 + 4) (by omega),
    readU64_pure l (pos + 4 + 8 + 2 + 2 + 4 + 4) (by omega),
    readU64_pure l (pos + 4 + 8 + 2 + 2 + 4 + 4 + 8) (by omega),
    readU64_pure l (pos + 4 + 8 + 2 + 2 + 4 + 4 + 8 + 8) (by omega),
    readU64_pure l (pos + 4 + 8 + 2 + 2 + 4 + 4 + 8 + 8 + 8) (by omega)]
  exact ⟨_, rfl⟩

theorem zip64Scan_skip (l : List Nat) (nominal pos fuel : Nat)
    (h4 : pos + 4 ≤ l.length) (hm : u32At l pos ≠ zip64Sig) :
    zip64Scan (pureData l) nominal pos (fuel + 1) =
      zip64Scan (pureData l) nominal (pos + 1) fuel := by
  rw [zip64Scan, readU32_pure l pos h4]
  exact if_neg hm

theorem zip64Scan_hit (l : List Nat) (nominal pos fuel : Nat)
    (h : pos + 56 ≤ l.length) (hm : u32At l pos = zip64Sig) :
    ∃ rec, zip64Scan (pureData l) nominal pos (fuel + 1) =
      .ok (rec, pos - nominal) := by
  obtain ⟨rec, hrec⟩ := parseZip64Body_pure l pos nominal h
  refine ⟨rec, ?_⟩
  rw [zip64Scan, readU32_pure l pos (by omega)]
  show (if u32At l pos = zip64Sig then _ else _) = _
  rw [if_pos hm, hrec]

/-- C2 (amended): for every stream that holds the zip64 EOCD magic at
position `nominal_offset + N`, within the search bound, with no
earlier magic occurrence in `[nominal_offset, nominal_offset + N)`,
and with the 52 record-body bytes present after the magic,
`Zip64CentralDirectoryEnd.find_and_parse` succeeds and returns
`archive_offset = N`. -/
theorem c2_zip64_offset (l : List Nat) (nominal N ub : Nat)
    (hub : nominal + N ≤ ub)
    (hlen : nominal + N + 56 ≤ l.length)
    (hmag : u32At l (nominal + N) = zip64Sig)
    (hno : ∀ k, k < N → u32At l (nominal + k) ≠ zip64Sig) :
    ∃ rec, Zip64CentralDirectoryEnd.find_and_parse (pureData l) nominal ub =
      .ok (rec, N) := by
  have key : ∀ d j, j + d = N →
      ∃ rec, zip64Scan (pureData l) nominal (nominal + j) (ub + 1 - (nominal + j)) =
        .ok (rec, N) := by
    intro d
    induction d with
    | zero =>
      intro j hj
      have hj' : j = N := by omega
      rw [hj']
      have hf : ub + 1 - (nominal + N) = (ub - (nominal + N)) + 1 := by omega
      rw [hf]
      have := zip64Scan_hit l nominal (nominal + N) (ub - (nominal + N)) (by omega) hmag
      obtain ⟨rec, hrec⟩ := this
      refine ⟨rec, ?_⟩
      rw [hrec, Nat.add_sub_cancel_left]
    | succ d ih =>
      intro j hj
      have hf : ub + 1 - (nominal + j) = (ub + 1 - (nominal + (j + 1))) + 1 := by omega
      rw [hf, zip64Scan_skip l nominal (nominal + j) _ (by omega) (hno j (by omega))]
      have := ih (j + 1) (by omega)
      rw [Nat.add_assoc nominal j 1]
      exact this
  have := key N 0 (by omega)
  rw [Nat.add_zero] at this
  exact this

/-! Claims C3, C4, C6, C9: the CRC32-validating reader. -/

theorem read_zero_noop (r : Crc32Reader (List Nat)) :
    Crc32Reader.read sliceStep r 0 = (.ok 0, r) := by
  obtain ⟨inner, hasher, check⟩ := r
  simp [Crc32Reader.read, sliceStep]

theorem runReads_append (step : InnerStep σ E) (r : Crc32Reader σ) (xs ys : List Nat) :
    runReads step r (xs ++ ys) =
      ((runReads step r xs).1 ++ (runReads step (runReads step r xs).2 ys).1,
       (runReads step (runReads step r xs).2 ys).2) := by
  induction xs generalizing r with
  | nil => simp [runReads]
  | cons n ns ih => simp [runReads, ih]

/-- C4: a zero-length read request on the byte-source reader returns
success with count 0 and leaves the whole reader state — inner source,
accumulator, expected value — unchanged, so it never consumes input or
triggers validation; consequently inserting a zero-length request
anywhere into a read sequence only inserts one `ok 0` result and
changes neither the other results nor the final state. -/
theorem c4_zero_length_requests (r : Crc32Reader (List Nat)) :
    Crc32Reader.read sliceStep r 0 = (.ok 0, r) ∧
      ∀ xs ys : List Nat,
        runReads sliceStep r (xs ++ 0 :: ys) =
          ((runReads sliceStep r xs).1 ++
             .ok 0 :: (runReads sliceStep (runReads sliceStep r xs).2 ys).1,
           (runReads sliceStep (runReads sliceStep r xs).2 ys).2) ∧
        runReads sliceStep r (xs ++ ys) =
          ((runReads sliceStep r xs).1 ++
             (runReads sliceStep (runReads sliceStep r xs).2 ys).1,
           (runReads sliceStep (runReads sliceStep r xs).2 ys).2) := by
  refine ⟨read_zero_noop r, fun xs ys => ⟨?_, runReads_append sliceStep r xs ys⟩⟩
  rw [runReads_append sliceStep r xs (0 :: ys)]
  simp [runReads, read_zero_noop]

/-- C3: on a nonempty read request that hits inner end-of-stream, the
reader fails with the checksum-mismatch error if the finalized
accumulator differs from the expected value and returns 0 normally if
it matches; and no read whose inner source still has bytes can raise
the checksum-mismatch error. -/
theorem c3_validation_at_eof (r : Crc32Reader (List Nat)) (k : Nat)
    (hk : k ≠ 0) (he : r.inner = []) :
    (r.check ≠ crc32 r.hasher →
      Crc32Reader.read sliceStep r k = (.error .invalidChecksum, r)) ∧
    (r.check = crc32 r.hasher →
      Crc32Reader.read sliceStep r k = (.ok 0, r)) ∧
    ∀ r2 : Crc32Reader (List Nat), r2.inner ≠ [] →
      ∀ m, (Crc32Reader.read sliceStep r2 m).1 ≠ .error .invalidChecksum := by
  obtain ⟨inner, hasher, check⟩ := r
  simp only at he
  subst he
  refine ⟨?_, ?_, ?_⟩
  · intro hne
    simp [Crc32Reader.read, sliceStep, hk, hne]
  · intro heq
    simp only at heq
    simp [Crc32Reader.read, sliceStep, hk, heq]
  · intro r2 hne m
    obtain ⟨i2, h2, c2⟩ := r2
    simp only at hne
    simp only [Crc32Reader.read, sliceStep]
    by_cases hcond : (i2.take m).length = 0 ∧ m ≠ 0 ∧ ¬(c2 = crc32 h2)
    · exfalso
      have hlen : (i2.take m).length = 0 := hcond.1
      rw [List.length_take] at hlen
      have : i2.length = 0 := by
        have := hcond.2.1
        omega
      exact hne (List.eq_nil_of_length_eq_zero this)
    · rw [if_neg hcond]
      simp

/-- C6: once a nonempty read request has returned a 0-byte success
(confirmed end-of-stream with matching checksum), every subsequent
read request returns 0 again with the state unchanged — draining after
confirmed end-of-stream is idempotent and never errors. -/
theorem c6_drain_after_eof (r r' : Crc32Reader (List Nat)) (k : Nat) (hk : k ≠ 0)
    (h : Crc32Reader.read sliceStep r k = (.ok 0, r')) :
    ∀ m, Crc32Reader.read sliceStep r' m = (.ok 0, r') := by
  obtain ⟨inner, hasher, check⟩ := r
  simp only [Crc32Reader.read, sliceStep] at h
  by_cases hcond : (inner.take k).length = 0 ∧ k ≠ 0 ∧ ¬(check = crc32 hasher)
  · rw [if_pos hcond] at h
    simp at h
  · rw [if_neg hcond] at h
    simp only [Prod.mk.injEq, Except.ok.injEq] at h
    obtain ⟨hlen0, hst⟩ := h
    have hinner : inner = [] := by
      rw [List.length_take] at hlen0
      have : inner.length = 0 := by omega
      exact List.eq_nil_of_length_eq_zero this
    subst hinner
    have hmatch : check = crc32 hasher := by
      by_contra hne
      exact hcond ⟨by simp, hk, hne⟩
    intro m
    rw [← hst]
    simp [Crc32Reader.read, sliceStep, hmatch]

theorem poll_read_resolved (step : InnerStep σ E) (r : Crc32Reader σ) (bufLen : Nat) :
    Crc32Reader.poll_read step r bufLen false =
      (.ready (Crc32Reader.read step r bufLen).1, (Crc32Reader.read step r bufLen).2) := by
  unfold Crc32Reader.poll_read Crc32Reader.read
  rw [if_neg (by simp)]
  rcases hs : step r.inner bufLen with ⟨res, s⟩
  cases res with
  | error e => simp
  | ok bs =>
    dsimp only
    by_cases hcond : bs.length = 0 ∧ bufLen ≠ 0 ∧ ¬(r.check = crc32 r.hasher)
    · rw [if_pos hcond, if_pos hcond]
    · rw [if_neg hcond, if_neg hcond]

theorem poll_read_pending (step : InnerStep σ E) (r : Crc32Reader σ) (bufLen : Nat) :
    Crc32Reader.poll_read step r bufLen true = (.pending, r) := by
  unfold Crc32Reader.poll_read
  rw [if_pos rfl]

/-- C9: the blocking `read` and the suspension-based `poll_read` are
semantically equivalent: for every inner source, state, and pending
schedule, awaiting `poll_read` yields exactly the result and successor
state of the blocking `read`, and any sequence of awaited reads yields
exactly the result sequence of the blocking reads. -/
theorem c9_async_equivalent (σ E : Type) (step : InnerStep σ E) :
    (∀ (r : Crc32Reader σ) (bufLen : Nat) (sched : List Bool),
      awaitRead step bufLen sched r = Crc32Reader.read step r bufLen) ∧
    ∀ (r : Crc32Reader σ) (reqs : List (List Bool × Nat)),
      runAwaits step r reqs = runReads step r (reqs.map Prod.snd) := by
  have h1 : ∀ (sched : List Bool) (r : Crc32Reader σ) (bufLen : Nat),
      awaitRead step bufLen sched r = Crc32Reader.read step r bufLen := by
    intro sched
    induction sched with
    | nil =>
      intro r bufLen
      rw [awaitRead, poll_read_resolved]
    | cons b rest ih =>
      intro r bufLen
      cases b with
      | true =>
        rw [awaitRead, poll_read_pending]
        exact ih r bufLen
      | false =>
        rw [awaitRead, poll_read_resolved]
  refine ⟨fun r bufLen sched => h1 sched r bufLen, ?_⟩
  intro r reqs
  induction reqs generalizing r with
  | nil => simp [runAwaits, runReads]
  | cons q qs ih => simp [runAwaits, runReads, h1, ih]

/-- Concrete stream of the C2 witness: three prefix bytes, the zip64
magic, and a 52-byte record body. -/
def c2WitData : List Nat :=
  [1, 2, 3] ++ [0x50, 0x4B, 0x06, 0x06] ++ List.replicate 52 0

/-- C2 witness: with three bytes of prefix data the scan returns
`archive_offset = 3`. -/
theorem c2_zip64_offset_witness :
    ((0 : Nat) + 3 ≤ 10 ∧ 0 + 3 + 56 ≤ c2WitData.length ∧
      u32At c2WitData (0 + 3) = zip64Sig ∧
      ∀ k, k < 3 → u32At c2WitData (0 + k) ≠ zip64Sig) ∧
    ∃ rec, Zip64CentralDirectoryEnd.find_and_parse (pureData c2WitData) 0 10 =
      .ok (rec, 3) :=
  ⟨⟨by decide, by decide, by decide, by decide⟩,
   c2_zip64_offset c2WitData 0 3 10 (by decide) (by decide) (by decide) (by decide)⟩

/-- C3 witness: the repository's own test vectors — after consuming
`"1234"` against checksum `0x9be3e0a3` a nonempty read returns 0, and
on empty input against checksum 1 the first nonempty read fails with
the checksum-mismatch error. -/
theorem c3_validation_at_eof_witness :
    crc32 [49, 50, 51, 52] = 0x9be3e0a3 ∧
      Crc32Reader.read sliceStep ⟨[], [49, 50, 51, 52], 0x9be3e0a3⟩ 1 =
        (.ok 0, ⟨[], [49, 50, 51, 52], 0x9be3e0a3⟩) ∧
      Crc32Reader.read sliceStep ⟨[], [], 1⟩ 1 =
        (.error .invalidChecksum, ⟨[], [], 1⟩) :=
  ⟨by decide,
   (c3_validation_at_eof ⟨[], [49, 50, 51, 52], 0x9be3e0a3⟩ 1 (by decide) rfl).2.1
     (by decide),
   (c3_validation_at_eof ⟨[], [], 1⟩ 1 (by decide) rfl).1 (by decide)⟩

/-- C6 witness: an exhausted reader with matching checksum keeps
returning 0. -/
theorem c6_drain_after_eof_witness :
    Crc32Reader.read sliceStep ⟨[], [], 0⟩ 1 = (.ok 0, ⟨[], [], 0⟩) ∧
      Crc32Reader.read sliceStep ⟨[], [], 0⟩ 2 = (.ok 0, ⟨[], [], 0⟩) :=
  ⟨by decide, c6_drain_after_eof ⟨[], [], 0⟩ ⟨[], [], 0⟩ 1 (by decide) (by decide) 2⟩

end ZipRs



